import Mathlib

/-!
Shallow embedding of `my_model_selectors.py`: the four model-selection
strategies (`SelectorConstant`, `SelectorBIC`, `SelectorDIC`, `SelectorCV`)
built on the shared `ModelSelector` base class.

The external fitting primitive (`hmmlearn.GaussianHMM(...).fit`) is modelled
by an oracle deciding, for each `(n_components, X, lengths)` triple, whether
`fit` succeeds; since the seed (`random_state`) and iteration cap are fixed,
a successfully fitted model is fully determined by those inputs and is
represented by them.  `model.score` is a second oracle that may fail
(returning `none` models a raised exception).  Python exceptions are
modelled with `Except PyErr`; a `try/except` block is a `match` on the
`Except` value of the translated block body.
-/

namespace MMS

/-- Feature matrix: a list of fixed-dimension frames (rows). -/
abbrev Mat : Type := List (List ℚ)

/-- Per-sequence lengths accompanying a flattened feature matrix. -/
abbrev Lens : Type := List Nat

/-- A word's list of observation sequences; each sequence is a list of frames. -/
abbrev Seqs : Type := List (List (List ℚ))

/-- Python exceptions that the translated code can raise. -/
inductive PyErr : Type where
  | fitError
  | scoreError
  | attributeError
  | nameError
  | valueError
  | keyError
  deriving DecidableEq

/-- A fitted `GaussianHMM`, represented by its defining inputs: the requested
state count and the training data it was fit on (seed and iteration cap are
fixed by the selector configuration). -/
structure HMModel : Type where
  n_components : Nat
  trainX : Mat
  trainLengths : Lens
  deriving DecidableEq

/-- Oracles for the external collaborator `hmmlearn`:
`fitOk n X lengths` tells whether `GaussianHMM(n_components=n, ...).fit(X, lengths)`
succeeds, and `score m X lengths` is `some logL` when `m.score(X, lengths)`
returns the log-likelihood `logL`, `none` when it raises. -/
structure Oracles : Type where
  fitOk : Nat → Mat → Lens → Bool
  score : HMModel → Mat → Lens → Option ℚ

/-- The fields of a `ModelSelector` instance set up by `ModelSelector.__init__`:
`wordsKeys` is the key list of `self.words` (iteration order of the dict),
`hwords` the word-to-`(X, lengths)` mapping (`self.hwords` and
`self.all_word_Xlengths` are the same object), `sequences`/`X`/`lengths` the
target word's data view, and the remaining fields the configuration. -/
structure SelState : Type where
  wordsKeys : List String
  hwords : List (String × (Mat × Lens))
  sequences : Seqs
  X : Mat
  lengths : Lens
  this_word : String
  n_constant : Nat
  min_n_components : Nat
  max_n_components : Nat

/-- Python float values arising in the selection loops: ordinary (exactly
represented) values, the infinities used as initial best scores, and `nan`
(produced by `np.mean([])`). -/
inductive PyFloat : Type where
  | val : ℚ → PyFloat
  | negInf
  | posInf
  | nan
  deriving DecidableEq

/-- IEEE-style strict greater-than on `PyFloat`: every comparison against
`nan` is false. -/
def PyFloat.gt : PyFloat → PyFloat → Bool
  | .nan, _ => false
  | _, .nan => false
  | .negInf, _ => false
  | .posInf, .posInf => false
  | .posInf, _ => true
  | .val _, .posInf => false
  | .val a, .val b => decide (b < a)
  | .val _, .negInf => true

/-- IEEE-style subtraction on `PyFloat`: any operation with `nan` is `nan`. -/
def PyFloat.sub : PyFloat → PyFloat → PyFloat
  | .nan, _ => .nan
  | _, .nan => .nan
  | .val a, .val b => .val (a - b)
  | .val _, .negInf => .posInf
  | .val _, .posInf => .negInf
  | .posInf, .posInf => .nan
  | .posInf, _ => .posInf
  | .negInf, .negInf => .nan
  | .negInf, _ => .negInf

/-- `np.mean` of a list of floats: `nan` on the empty list (with a warning
that is not an exception), the exact arithmetic mean otherwise. -/
def npMean (l : List ℚ) : PyFloat :=
  if l.isEmpty then .nan else .val (l.sum / (l.length : ℚ))

/-- Python `range(a, b)` as a list. -/
def pyRange (a b : Nat) : List Nat := List.range' a (b - a)

/-- `GaussianHMM(n_components=num_states, ...).fit(X, lengths)` as a fallible
call: the oracle decides success; a success produces the model determined by
the inputs. -/
def fitE (or : Oracles) (num_states : Nat) (X : Mat) (lengths : Lens) :
    Except PyErr HMModel :=
  if or.fitOk num_states X lengths then .ok ⟨num_states, X, lengths⟩
  else .error .fitError

/-- `ModelSelector.base_model` (my_model_selectors.py lines 34-47): attempt the
fit inside a bare `try/except`; any failure is converted to `None`. -/
def base_model (or : Oracles) (X : Mat) (lengths : Lens) (num_states : Nat) :
    Option HMModel :=
  match fitE or num_states X lengths with
  | .ok hmm_model => some hmm_model
  | .error _ => none

/-- `SelectorConstant.select` (lines 55-61): `base_model(self.n_constant)`. -/
def constantSelect (or : Oracles) (σ : SelState) : Option HMModel :=
  base_model or σ.X σ.lengths σ.n_constant

/-- `SelectorConstant.select` viewed at the exception boundary: the method body
is a total computation (the only fallible call is inside `base_model`, which
catches it), so the translated method never carries an error. -/
def constantSelectE (or : Oracles) (σ : SelState) : Except PyErr (Option HMModel) :=
  .ok (constantSelect or σ)

/-- One pass of the `for n_components in range(...)` loop of
`SelectorBIC.select` (lines 83-93).  Line 86 `hmm_model.score(...)` raises
`AttributeError` when `base_model` returned `None`; when both the fit and the
scoring succeed, line 87 computes `logN` (never raising) and line 88
`parameters = n*n + 2*n*len(self.X[0]) - 1` evaluates the undefined name `n`,
raising `NameError`, so the rest of the loop body (lines 89-93) and all later
iterations are unreachable. -/
def bicGo (or : Oracles) (X : Mat) (lengths : Lens) :
    List Nat → Option HMModel → Except PyErr (Option HMModel)
  | [], best_model => .ok best_model
  | n_components :: _, _ =>
    match base_model or X lengths n_components with
    | none => .error .attributeError
    | some hmm_model =>
      match or.score hmm_model X lengths with
      | none => .error .scoreError
      | some _logL => .error .nameError

/-- The `try` block of `SelectorBIC.select` (lines 80-94). -/
def bicBody (or : Oracles) (σ : SelState) : Except PyErr (Option HMModel) :=
  bicGo or σ.X σ.lengths
    (pyRange σ.min_n_components (σ.max_n_components + 1)) none

/-- `SelectorBIC.select` (lines 71-96): the `try` body with the bare `except`
falling back to `base_model(self.n_constant)`. -/
def bicSelect (or : Oracles) (σ : SelState) : Option HMModel :=
  match bicBody or σ with
  | .ok best_model => best_model
  | .error _ => base_model or σ.X σ.lengths σ.n_constant

/-- `SelectorBIC.select` at the exception boundary: the handler of the bare
`except` (a `base_model` call) is itself total, so no error escapes. -/
def bicSelectE (or : Oracles) (σ : SelState) : Except PyErr (Option HMModel) :=
  match bicBody or σ with
  | .ok best_model => .ok best_model
  | .error _ => .ok (base_model or σ.X σ.lengths σ.n_constant)

/-- The inner `for word in list_of_words` loop of `SelectorDIC.select`
(lines 120-123): for each word other than `this_word`, look its data up in
`self.all_word_Xlengths` (a miss would be a `KeyError`) and append
`hmm_model.score(word_X, word_lengths)` (an `AttributeError` when `hmm_model`
is `None`, the scoring failure otherwise). -/
def dicOtherScores (or : Oracles) (hm : Option HMModel)
    (hwords : List (String × (Mat × Lens))) (thisW : String) :
    List String → List ℚ → Except PyErr (List ℚ)
  | [], scores => .ok scores
  | word :: rest, scores =>
    if word = thisW then dicOtherScores or hm hwords thisW rest scores
    else
      match hwords.lookup word with
      | none => .error .keyError
      | some wXl =>
        match hm with
        | none => .error .attributeError
        | some hmm_model =>
          match or.score hmm_model wXl.1 wXl.2 with
          | none => .error .scoreError
          | some q => dicOtherScores or hm hwords thisW rest (scores ++ [q])

/-- The `for n_components in range(...)` loop of `SelectorDIC.select`
(lines 117-127): fit, score against every other word, score on own data,
`score = own - np.mean(scores)` (which is `nan` when `scores` is empty), and
keep the best by strict improvement. -/
def dicGo (or : Oracles) (σ : SelState) :
    List Nat → PyFloat → Option HMModel → Except PyErr (Option HMModel)
  | [], _best_score, best_model => .ok best_model
  | n_components :: rest, best_score, best_model =>
    let hmm_model := base_model or σ.X σ.lengths n_components
    match dicOtherScores or hmm_model σ.hwords σ.this_word σ.wordsKeys [] with
    | .error e => .error e
    | .ok scores =>
      match hmm_model with
      | none => .error .attributeError
      | some m =>
        match or.score m σ.X σ.lengths with
        | none => .error .scoreError
        | some own =>
          let score := PyFloat.sub (.val own) (npMean scores)
          if PyFloat.gt score best_score then dicGo or σ rest score (some m)
          else dicGo or σ rest best_score best_model

/-- The `try` block of `SelectorDIC.select` (lines 112-128). -/
def dicBody (or : Oracles) (σ : SelState) : Except PyErr (Option HMModel) :=
  dicGo or σ (pyRange σ.min_n_components (σ.max_n_components + 1)) .negInf none

/-- `SelectorDIC.select` (lines 110-130): the `try` body with the bare
`except` falling back to `base_model(self.n_constant)`. -/
def dicSelect (or : Oracles) (σ : SelState) : Option HMModel :=
  match dicBody or σ with
  | .ok best_model => best_model
  | .error _ => base_model or σ.X σ.lengths σ.n_constant

/-- `SelectorDIC.select` at the exception boundary. -/
def dicSelectE (or : Oracles) (σ : SelState) : Except PyErr (Option HMModel) :=
  match dicBody or σ with
  | .ok best_model => .ok best_model
  | .error _ => .ok (base_model or σ.X σ.lengths σ.n_constant)

/-- Size of sklearn `KFold` fold `i` when splitting `n` samples into `k`
folds without shuffling: the first `n % k` folds get `n / k + 1` samples,
the rest `n / k`. -/
def foldSize (n k i : Nat) : Nat := n / k + if i < n % k then 1 else 0

/-- Start index of sklearn `KFold` fold `i`. -/
def foldStart (n k i : Nat) : Nat := i * (n / k) + min i (n % k)

/-- Test indices of fold `i`: the contiguous block of `foldSize` indices
starting at `foldStart` (sklearn `KFold` with `shuffle=False`). -/
def testIdx (n k i : Nat) : List Nat :=
  List.range' (foldStart n k i) (foldSize n k i)

/-- Train indices of fold `i`: all sample indices outside the test block,
in increasing order. -/
def trainIdx (n k i : Nat) : List Nat :=
  (List.range n).filter fun j =>
    decide (j < foldStart n k i) || decide (foldStart n k i + foldSize n k i ≤ j)

/-- Modelled from the spec: `combine_sequences` from module `asl_utils`, which
is not under src/.  Per the spec's FlattenedView contract it builds, from the
sequences selected by an index list, the pair of the concatenated feature
matrix and the ordered list of per-sequence lengths (summing the lengths
reconstructs the matrix row count). -/
def combine_sequences (idx : List Nat) (seqs : Seqs) : Mat × Lens :=
  ((idx.map fun i => seqs.getD i []).flatten,
   idx.map fun i => (seqs.getD i []).length)

/-- The `KFold` fold count `min(3, len(self.sequences))` used by
`SelectorCV.select` (line 147). -/
def kOf (σ : SelState) : Nat := min 3 σ.sequences.length

/-- The training view `combine_sequences(cv_train_idx, self.sequences)` of
fold `i` for the selector's word. -/
def trainView (σ : SelState) (i : Nat) : Mat × Lens :=
  combine_sequences (trainIdx σ.sequences.length (kOf σ) i) σ.sequences

/-- The held-out test view of fold `i` for the selector's word. -/
def testView (σ : SelState) (i : Nat) : Mat × Lens :=
  combine_sequences (testIdx σ.sequences.length (kOf σ) i) σ.sequences

/-- The inner `for cv_train_idx, cv_test_idx in split_method.split(...)` loop
of `SelectorCV.select` (lines 150-157).  Each fold first overwrites
`self.X, self.lengths` with the fold's training view (line 151), then fits
(`base_model`, line 152, total), builds the test view and scores it
(line 155: `AttributeError` when the fit returned `None`, or the scoring
failure itself).  The returned `Mat × Lens` is the value of
`self.X, self.lengths` when the loop exits, normally or with an exception. -/
def cvFolds (or : Oracles) (seqs : Seqs) (n_components k : Nat) :
    List Nat → Mat → Lens → List ℚ → Option HMModel →
    (Except PyErr (List ℚ × Option HMModel)) × Mat × Lens
  | [], X, lengths, logL_arr, hmm_model => (.ok (logL_arr, hmm_model), X, lengths)
  | i :: rest, _, _, logL_arr, _ =>
    let tr := combine_sequences (trainIdx seqs.length k i) seqs
    let hmm_model := base_model or tr.1 tr.2 n_components
    let te := combine_sequences (testIdx seqs.length k i) seqs
    match hmm_model with
    | none => (.error .attributeError, tr.1, tr.2)
    | some m =>
      match or.score m te.1 te.2 with
      | none => (.error .scoreError, tr.1, tr.2)
      | some logL => cvFolds or seqs n_components k rest tr.1 tr.2 (logL_arr ++ [logL]) (some m)

/-- The outer `for n_components in range(...)` loop of `SelectorCV.select`
(lines 146-163).  Each iteration constructs `KFold(n_splits=min(3,
len(self.sequences)))`, which raises `ValueError` when `n_splits <= 1`
(a word with fewer than two sequences); otherwise it runs the fold loop,
averages the collected held-out log-likelihoods with `np.mean`, and keeps the
candidate by strict improvement, remembering the *last fold's* fitted model
(`best_model = hmm_model`, line 163). -/
def cvOuter (or : Oracles) (σ : SelState) :
    List Nat → Mat → Lens → PyFloat → Option HMModel →
    (Except PyErr (Option HMModel)) × Mat × Lens
  | [], X, lengths, _best_score, best_model => (.ok best_model, X, lengths)
  | n_components :: rest, X, lengths, best_score, best_model =>
    let k := min 3 σ.sequences.length
    if k ≤ 1 then (.error .valueError, X, lengths)
    else
      match cvFolds or σ.sequences n_components k (List.range k) X lengths [] none with
      | (.error e, X2, L2) => (.error e, X2, L2)
      | (.ok (logL_arr, hmm_model), X2, L2) =>
        let avg_score := npMean logL_arr
        if PyFloat.gt avg_score best_score then
          cvOuter or σ rest X2 L2 avg_score hmm_model
        else
          cvOuter or σ rest X2 L2 best_score best_model

/-- The `try` block of `SelectorCV.select` (lines 142-164), together with the
final value of the mutated `self.X, self.lengths` view. -/
def cvBody (or : Oracles) (σ : SelState) :
    (Except PyErr (Option HMModel)) × Mat × Lens :=
  cvOuter or σ (pyRange σ.min_n_components (σ.max_n_components + 1))
    σ.X σ.lengths .negInf none

/-- `SelectorCV.select` (lines 139-166): the `try` body with the bare `except`
falling back to `base_model(self.n_constant)` — note that the fallback fit
uses the *current* (possibly fold-mutated) `self.X, self.lengths`.  The result
pairs the returned model with the final `self.X, self.lengths` view. -/
def cvSelect (or : Oracles) (σ : SelState) : Option HMModel × Mat × Lens :=
  match cvBody or σ with
  | (.ok best_model, X, lengths) => (best_model, X, lengths)
  | (.error _, X, lengths) => (base_model or X lengths σ.n_constant, X, lengths)

/-- `SelectorCV.select` at the exception boundary. -/
def cvSelectE (or : Oracles) (σ : SelState) :
    Except PyErr (Option HMModel × Mat × Lens) :=
  match cvBody or σ with
  | (.ok best_model, X, lengths) => .ok (best_model, X, lengths)
  | (.error _, X, lengths) => .ok (base_model or X lengths σ.n_constant, X, lengths)

/-- The selector state after `select()` returns, with the (possibly mutated)
`self.X, self.lengths` written back. -/
def setView (σ : SelState) (X : Mat) (lengths : Lens) : SelState :=
  { σ with X := X, lengths := lengths }

/-- The model that `SelectorCV.select` remembers for a winning candidate
`nc`: the model fitted on the training split of the *last* fold
(`best_model = hmm_model` keeps the model of the final fold iteration), not a
refit on the full word data. -/
def foldModel (σ : SelState) (nc : Nat) : HMModel :=
  ⟨nc, (trainView σ (kOf σ - 1)).1, (trainView σ (kOf σ - 1)).2⟩

/-- Concatenation of the test-index blocks of all `k` folds, in fold order. -/
def testPartition (n k : Nat) : List Nat :=
  ((List.range k).map (testIdx n k)).flatten

/-- The complement of fold `i`'s test block inside `range n`. -/
def complementIdx (n k i : Nat) : List Nat :=
  (List.range n).filter fun j => !(decide (j ∈ testIdx n k i))

/-! Concrete oracles and selector states used for evaluations, witnesses and
counterexamples.  `orTrue` always fits and always scores `0`; the `orC*`
oracles fail scoring exactly on one designated data view. -/

/-- Oracle where every fit succeeds and every scoring returns `0`. -/
def orTrue : Oracles := ⟨fun _ _ _ => true, fun _ _ _ => some 0⟩

/-- Oracle whose scoring fails exactly on the matrix `[[0]]`. -/
def orC5 : Oracles := ⟨fun _ _ _ => true, fun _ X _ => if X = [[0]] then none else some 0⟩

/-- Oracle whose scoring fails exactly on the matrix `[[7]]`. -/
def orC6 : Oracles := ⟨fun _ _ _ => true, fun _ X _ => if X = [[7]] then none else some 0⟩

/-- Oracle whose scoring fails exactly on the matrix `[[10]]`. -/
def orC7 : Oracles := ⟨fun _ _ _ => true, fun _ X _ => if X = [[10]] then none else some 0⟩

/-- A word with one two-frame sequence, search range `[2,4]`. -/
def σC2 : SelState :=
  { wordsKeys := ["w"], hwords := [("w", ([[1],[2]], [2]))],
    sequences := [[[1],[2]]], X := [[1],[2]], lengths := [2],
    this_word := "w", n_constant := 3, min_n_components := 2, max_n_components := 4 }

/-- A word with one single-frame sequence, search range `[2,4]`. -/
def σC3 : SelState :=
  { wordsKeys := ["w"], hwords := [("w", ([[1]], [1]))],
    sequences := [[[1]]], X := [[1]], lengths := [1],
    this_word := "w", n_constant := 3, min_n_components := 2, max_n_components := 4 }

/-- A word with three one-frame sequences, a single candidate `n_states = 2`. -/
def σC4 : SelState :=
  { wordsKeys := ["w"], hwords := [("w", ([[0],[1],[2]], [1,1,1]))],
    sequences := [[[0]],[[1]],[[2]]], X := [[0],[1],[2]], lengths := [1,1,1],
    this_word := "w", n_constant := 3, min_n_components := 2, max_n_components := 2 }

/-- A word with three one-frame sequences, range `[2,4]`, `n_constant = 5`. -/
def σC5 : SelState :=
  { wordsKeys := ["w"], hwords := [("w", ([[0],[1],[2]], [1,1,1]))],
    sequences := [[[0]],[[1]],[[2]]], X := [[0],[1],[2]], lengths := [1,1,1],
    this_word := "w", n_constant := 5, min_n_components := 2, max_n_components := 4 }

/-- A corpus with the target word `"w"` and two other words `"a"`, `"b"`. -/
def σC6 : SelState :=
  { wordsKeys := ["w","a","b"],
    hwords := [("w", ([[5]], [1])), ("a", ([[7]], [1])), ("b", ([[8]], [1]))],
    sequences := [[[5]]], X := [[5]], lengths := [1],
    this_word := "w", n_constant := 6, min_n_components := 2, max_n_components := 4 }

/-- A word with three one-frame sequences, range `[2,4]`, `n_constant = 3`. -/
def σC7 : SelState :=
  { wordsKeys := ["w"], hwords := [("w", ([[10],[11],[12]], [1,1,1]))],
    sequences := [[[10]],[[11]],[[12]]], X := [[10],[11],[12]], lengths := [1,1,1],
    this_word := "w", n_constant := 3, min_n_components := 2, max_n_components := 4 }

/-- A word with three one-frame sequences, a single candidate `n_states = 2`. -/
def σC8 : SelState :=
  { wordsKeys := ["w"], hwords := [("w", ([[1],[2],[3]], [1,1,1]))],
    sequences := [[[1]],[[2]],[[3]]], X := [[1],[2],[3]], lengths := [1,1,1],
    this_word := "w", n_constant := 3, min_n_components := 2, max_n_components := 2 }

/-- A word with exactly one sequence (two frames), range `[2,4]`. -/
def σC9 : SelState :=
  { wordsKeys := ["w"], hwords := [("w", ([[4],[5]], [2]))],
    sequences := [[[4],[5]]], X := [[4],[5]], lengths := [2],
    this_word := "w", n_constant := 3, min_n_components := 2, max_n_components := 4 }

/-- A word with four one-frame sequences, range `[2,4]` (so `k = 3` with
uneven folds). -/
def σC9W : SelState :=
  { wordsKeys := ["w"], hwords := [("w", ([[4],[5],[6],[7]], [1,1,1,1]))],
    sequences := [[[4]],[[5]],[[6]],[[7]]], X := [[4],[5],[6],[7]], lengths := [1,1,1,1],
    this_word := "w", n_constant := 3, min_n_components := 2, max_n_components := 4 }

/-- A corpus containing only the target word: the other-word set is empty. -/
def σC10 : SelState :=
  { wordsKeys := ["w"], hwords := [("w", ([[9]], [1]))],
    sequences := [[[9]]], X := [[9]], lengths := [1],
    this_word := "w", n_constant := 3, min_n_components := 2, max_n_components := 4 }

/-! Helper lemmas. -/

/-- `range(a, b+1)` is non-empty and starts at `a` whenever `a ≤ b`. -/
theorem pyRange_cons (a b : Nat) (h : a ≤ b) :
    pyRange a (b + 1) = a :: pyRange (a + 1) (b + 1) := by
  unfold pyRange
  have h1 : b + 1 - a = (b - a) + 1 := by omega
  have h2 : b + 1 - (a + 1) = b - a := by omega
  rw [h1, h2, List.range'_succ]

/-- Unfolding of one `SelectorBIC` loop iteration. -/
theorem bicGo_cons (or : Oracles) (X : Mat) (L : Lens) (n : Nat) (rest : List Nat)
    (bm : Option HMModel) :
    bicGo or X L (n :: rest) bm =
      (match base_model or X L n with
       | none => .error .attributeError
       | some m =>
         match or.score m X L with
         | none => .error .scoreError
         | some _ => .error .nameError) := rfl

/-- A successful `base_model` returns the model determined by its inputs. -/
theorem base_model_some (or : Oracles) (X : Mat) (L : Lens) (n : Nat) (m : HMModel)
    (h : base_model or X L n = some m) : m = ⟨n, X, L⟩ := by
  unfold base_model fitE at h
  cases hf : or.fitOk n X L with
  | false => rw [hf] at h; exact absurd h (by simp)
  | true =>
    rw [hf] at h
    exact (Option.some.inj h).symm

/-- Unfolding of an empty `SelectorCV` fold loop. -/
theorem cvFolds_nil (or : Oracles) (seqs : Seqs) (nc k : Nat) (X : Mat) (L : Lens)
    (arr : List ℚ) (hm : Option HMModel) :
    cvFolds or seqs nc k [] X L arr hm = (.ok (arr, hm), X, L) := rfl

/-- Unfolding of one `SelectorCV` fold iteration. -/
theorem cvFolds_cons (or : Oracles) (seqs : Seqs) (nc k i : Nat) (rest : List Nat)
    (X : Mat) (L : Lens) (arr : List ℚ) (hm : Option HMModel) :
    cvFolds or seqs nc k (i :: rest) X L arr hm =
      (match base_model or (combine_sequences (trainIdx seqs.length k i) seqs).1
          (combine_sequences (trainIdx seqs.length k i) seqs).2 nc with
       | none => (.error .attributeError,
           (combine_sequences (trainIdx seqs.length k i) seqs).1,
           (combine_sequences (trainIdx seqs.length k i) seqs).2)
       | some m =>
         match or.score m (combine_sequences (testIdx seqs.length k i) seqs).1
             (combine_sequences (testIdx seqs.length k i) seqs).2 with
         | none => (.error .scoreError,
             (combine_sequences (trainIdx seqs.length k i) seqs).1,
             (combine_sequences (trainIdx seqs.length k i) seqs).2)
         | some logL => cvFolds or seqs nc k rest
             (combine_sequences (trainIdx seqs.length k i) seqs).1
             (combine_sequences (trainIdx seqs.length k i) seqs).2
             (arr ++ [logL]) (some m)) := rfl

/-- A fold iteration ignores the incoming `self.X, self.lengths` view and the
previous `hmm_model` local: line 151 overwrites them before any use. -/
theorem cvFolds_cons_state (or : Oracles) (seqs : Seqs) (nc k i : Nat)
    (rest : List Nat) (X A : Mat) (L B : Lens) (arr : List ℚ)
    (hm hm2 : Option HMModel) :
    cvFolds or seqs nc k (i :: rest) X L arr hm =
    cvFolds or seqs nc k (i :: rest) A B arr hm2 := rfl

/-- Fold iteration outcome when the fit fails: `hmm_model.score` on `None`
raises `AttributeError`, with the view left at this fold's training view. -/
theorem cvFolds_cons_fitFail (or : Oracles) (seqs : Seqs) (nc k i : Nat)
    (rest : List Nat) (X : Mat) (L : Lens) (arr : List ℚ) (hm : Option HMModel)
    (hbm : base_model or (combine_sequences (trainIdx seqs.length k i) seqs).1
        (combine_sequences (trainIdx seqs.length k i) seqs).2 nc = none) :
    cvFolds or seqs nc k (i :: rest) X L arr hm =
      (.error .attributeError, (combine_sequences (trainIdx seqs.length k i) seqs).1,
       (combine_sequences (trainIdx seqs.length k i) seqs).2) := by
  rw [cvFolds_cons, hbm]

/-- Fold iteration outcome when the fit succeeds but the held-out scoring
fails, with the view left at this fold's training view. -/
theorem cvFolds_cons_scoreFail (or : Oracles) (seqs : Seqs) (nc k i : Nat)
    (rest : List Nat) (X : Mat) (L : Lens) (arr : List ℚ) (hm : Option HMModel)
    (m : HMModel)
    (hbm : base_model or (combine_sequences (trainIdx seqs.length k i) seqs).1
        (combine_sequences (trainIdx seqs.length k i) seqs).2 nc = some m)
    (hsc : or.score m (combine_sequences (testIdx seqs.length k i) seqs).1
        (combine_sequences (testIdx seqs.length k i) seqs).2 = none) :
    cvFolds or seqs nc k (i :: rest) X L arr hm =
      (.error .scoreError, (combine_sequences (trainIdx seqs.length k i) seqs).1,
       (combine_sequences (trainIdx seqs.length k i) seqs).2) := by
  rw [cvFolds_cons, hbm]
  simp only [hsc]

/-- Fold iteration outcome when both the fit and the held-out scoring
succeed: append the log-likelihood and continue on the remaining folds. -/
theorem cvFolds_cons_ok (or : Oracles) (seqs : Seqs) (nc k i : Nat)
    (rest : List Nat) (X : Mat) (L : Lens) (arr : List ℚ) (hm : Option HMModel)
    (m : HMModel) (logL : ℚ)
    (hbm : base_model or (combine_sequences (trainIdx seqs.length k i) seqs).1
        (combine_sequences (trainIdx seqs.length k i) seqs).2 nc = some m)
    (hsc : or.score m (combine_sequences (testIdx seqs.length k i) seqs).1
        (combine_sequences (testIdx seqs.length k i) seqs).2 = some logL) :
    cvFolds or seqs nc k (i :: rest) X L arr hm =
      cvFolds or seqs nc k rest (combine_sequences (trainIdx seqs.length k i) seqs).1
        (combine_sequences (trainIdx seqs.length k i) seqs).2 (arr ++ [logL]) (some m) := by
  rw [cvFolds_cons, hbm]
  simp only [hsc]

/-- When the fold loop exits with an exception, the mutated view is the
training view of the fold that failed. -/
theorem cvFolds_error_view (or : Oracles) (seqs : Seqs) (nc k : Nat) :
    ∀ (l : List Nat) (X : Mat) (L : Lens) (arr : List ℚ) (hm : Option HMModel)
      (e : PyErr) (X2 : Mat) (L2 : Lens),
      cvFolds or seqs nc k l X L arr hm = (.error e, X2, L2) →
      ∃ i, i ∈ l ∧ (X2, L2) = combine_sequences (trainIdx seqs.length k i) seqs := by
  intro l
  induction l with
  | nil =>
    intro X L arr hm e X2 L2 hEq
    exact absurd hEq (by simp [cvFolds_nil])
  | cons i rest ih =>
    intro X L arr hm e X2 L2 hEq
    cases hbm : base_model or (combine_sequences (trainIdx seqs.length k i) seqs).1
        (combine_sequences (trainIdx seqs.length k i) seqs).2 nc with
    | none =>
      rw [cvFolds_cons_fitFail or seqs nc k i rest X L arr hm hbm] at hEq
      simp only [Prod.mk.injEq] at hEq
      obtain ⟨-, h1, h2⟩ := hEq
      exact ⟨i, List.mem_cons_self i rest, by rw [← h1, ← h2]⟩
    | some m =>
      cases hsc : or.score m (combine_sequences (testIdx seqs.length k i) seqs).1
          (combine_sequences (testIdx seqs.length k i) seqs).2 with
      | none =>
        rw [cvFolds_cons_scoreFail or seqs nc k i rest X L arr hm m hbm hsc] at hEq
        simp only [Prod.mk.injEq] at hEq
        obtain ⟨-, h1, h2⟩ := hEq
        exact ⟨i, List.mem_cons_self i rest, by rw [← h1, ← h2]⟩
      | some logL =>
        rw [cvFolds_cons_ok or seqs nc k i rest X L arr hm m logL hbm hsc] at hEq
        obtain ⟨j, hj, hview⟩ := ih _ _ _ _ _ _ _ hEq
        exact ⟨j, List.mem_cons_of_mem i hj, hview⟩

/-- The view at the fold loop's exit (normal or exceptional) is either the
incoming view (no fold ran) or some fold's training view. -/
theorem cvFolds_view (or : Oracles) (seqs : Seqs) (nc k : Nat) :
    ∀ (l : List Nat) (X : Mat) (L : Lens) (arr : List ℚ) (hm : Option HMModel),
      (cvFolds or seqs nc k l X L arr hm).2 = (X, L) ∨
      ∃ i, i ∈ l ∧ (cvFolds or seqs nc k l X L arr hm).2 =
        combine_sequences (trainIdx seqs.length k i) seqs := by
  intro l
  induction l with
  | nil => intro X L arr hm; exact Or.inl rfl
  | cons i rest ih =>
    intro X L arr hm
    cases hbm : base_model or (combine_sequences (trainIdx seqs.length k i) seqs).1
        (combine_sequences (trainIdx seqs.length k i) seqs).2 nc with
    | none =>
      rw [cvFolds_cons_fitFail or seqs nc k i rest X L arr hm hbm]
      exact Or.inr ⟨i, List.mem_cons_self i rest, rfl⟩
    | some m =>
      cases hsc : or.score m (combine_sequences (testIdx seqs.length k i) seqs).1
          (combine_sequences (testIdx seqs.length k i) seqs).2 with
      | none =>
        rw [cvFolds_cons_scoreFail or seqs nc k i rest X L arr hm m hbm hsc]
        exact Or.inr ⟨i, List.mem_cons_self i rest, rfl⟩
      | some logL =>
        rw [cvFolds_cons_ok or seqs nc k i rest X L arr hm m logL hbm hsc]
        rcases ih (combine_sequences (trainIdx seqs.length k i) seqs).1
            (combine_sequences (trainIdx seqs.length k i) seqs).2
            (arr ++ [logL]) (some m) with h | ⟨j, hj, h⟩
        · exact Or.inr ⟨i, List.mem_cons_self i rest, h⟩
        · exact Or.inr ⟨j, List.mem_cons_of_mem i hj, h⟩

/-- When the fold loop completes normally over a non-empty fold list, the
`hmm_model` local holds the model fitted on the *last* fold's training view. -/
theorem cvFolds_snoc_ok_model (or : Oracles) (seqs : Seqs) (nc k : Nat) :
    ∀ (l : List Nat) (i : Nat) (X : Mat) (L : Lens) (arr : List ℚ)
      (hm : Option HMModel) (arr2 : List ℚ) (hm2 : Option HMModel)
      (X2 : Mat) (L2 : Lens),
      cvFolds or seqs nc k (l ++ [i]) X L arr hm = (.ok (arr2, hm2), X2, L2) →
      hm2 = some ⟨nc, (combine_sequences (trainIdx seqs.length k i) seqs).1,
        (combine_sequences (trainIdx seqs.length k i) seqs).2⟩ := by
  intro l
  induction l with
  | nil =>
    intro i X L arr hm arr2 hm2 X2 L2 hEq
    rw [List.nil_append] at hEq
    cases hbm : base_model or (combine_sequences (trainIdx seqs.length k i) seqs).1
        (combine_sequences (trainIdx seqs.length k i) seqs).2 nc with
    | none =>
      rw [cvFolds_cons_fitFail or seqs nc k i [] X L arr hm hbm] at hEq
      exact absurd hEq (by simp)
    | some m =>
      cases hsc : or.score m (combine_sequences (testIdx seqs.length k i) seqs).1
          (combine_sequences (testIdx seqs.length k i) seqs).2 with
      | none =>
        rw [cvFolds_cons_scoreFail or seqs nc k i [] X L arr hm m hbm hsc] at hEq
        exact absurd hEq (by simp)
      | some logL =>
        rw [cvFolds_cons_ok or seqs nc k i [] X L arr hm m logL hbm hsc,
          cvFolds_nil] at hEq
        simp only [Prod.mk.injEq, Except.ok.injEq] at hEq
        obtain ⟨⟨-, h1⟩, -, -⟩ := hEq
        rw [← h1, base_model_some or _ _ _ m hbm]
  | cons j rest ih =>
    intro i X L arr hm arr2 hm2 X2 L2 hEq
    rw [List.cons_append] at hEq
    cases hbm : base_model or (combine_sequences (trainIdx seqs.length k j) seqs).1
        (combine_sequences (trainIdx seqs.length k j) seqs).2 nc with
    | none =>
      rw [cvFolds_cons_fitFail or seqs nc k j (rest ++ [i]) X L arr hm hbm] at hEq
      exact absurd hEq (by simp)
    | some m =>
      cases hsc : or.score m (combine_sequences (testIdx seqs.length k j) seqs).1
          (combine_sequences (testIdx seqs.length k j) seqs).2 with
      | none =>
        rw [cvFolds_cons_scoreFail or seqs nc k j (rest ++ [i]) X L arr hm m hbm hsc] at hEq
        exact absurd hEq (by simp)
      | some logL =>
        rw [cvFolds_cons_ok or seqs nc k j (rest ++ [i]) X L arr hm m logL hbm hsc] at hEq
        exact ih i _ _ _ _ _ _ _ _ hEq

/-- When the fold loop completes normally, every fold contributed exactly one
held-out log-likelihood to `logL_arr`. -/
theorem cvFolds_ok_length (or : Oracles) (seqs : Seqs) (nc k : Nat) :
    ∀ (l : List Nat) (X : Mat) (L : Lens) (arr : List ℚ) (hm : Option HMModel)
      (arr2 : List ℚ) (hm2 : Option HMModel) (X2 : Mat) (L2 : Lens),
      cvFolds or seqs nc k l X L arr hm = (.ok (arr2, hm2), X2, L2) →
      arr2.length = arr.length + l.length := by
  intro l
  induction l with
  | nil =>
    intro X L arr hm arr2 hm2 X2 L2 hEq
    simp only [cvFolds_nil, Prod.mk.injEq, Except.ok.injEq] at hEq
    obtain ⟨⟨h1, -⟩, -, -⟩ := hEq
    simp [← h1]
  | cons i rest ih =>
    intro X L arr hm arr2 hm2 X2 L2 hEq
    cases hbm : base_model or (combine_sequences (trainIdx seqs.length k i) seqs).1
        (combine_sequences (trainIdx seqs.length k i) seqs).2 nc with
    | none =>
      rw [cvFolds_cons_fitFail or seqs nc k i rest X L arr hm hbm] at hEq
      exact absurd hEq (by simp)
    | some m =>
      cases hsc : or.score m (combine_sequences (testIdx seqs.length k i) seqs).1
          (combine_sequences (testIdx seqs.length k i) seqs).2 with
      | none =>
        rw [cvFolds_cons_scoreFail or seqs nc k i rest X L arr hm m hbm hsc] at hEq
        exact absurd hEq (by simp)
      | some logL =>
        rw [cvFolds_cons_ok or seqs nc k i rest X L arr hm m logL hbm hsc] at hEq
        have := ih _ _ _ _ _ _ _ _ hEq
        simp only [List.length_append, List.length_cons, List.length_nil] at this ⊢
        omega

/-- Unfolding of an empty `SelectorCV` candidate loop. -/
theorem cvOuter_nil (or : Oracles) (σ : SelState) (X : Mat) (L : Lens)
    (b : PyFloat) (bm : Option HMModel) :
    cvOuter or σ [] X L b bm = (.ok bm, X, L) := rfl

/-- Unfolding of one `SelectorCV` candidate iteration. -/
theorem cvOuter_cons (or : Oracles) (σ : SelState) (nc : Nat) (rest : List Nat)
    (X : Mat) (L : Lens) (b : PyFloat) (bm : Option HMModel) :
    cvOuter or σ (nc :: rest) X L b bm =
      (if min 3 σ.sequences.length ≤ 1 then (.error .valueError, X, L)
       else
         match cvFolds or σ.sequences nc (min 3 σ.sequences.length)
             (List.range (min 3 σ.sequences.length)) X L [] none with
         | (.error e, X2, L2) => (.error e, X2, L2)
         | (.ok (arr, hm), X2, L2) =>
           if PyFloat.gt (npMean arr) b then cvOuter or σ rest X2 L2 (npMean arr) hm
           else cvOuter or σ rest X2 L2 b bm) := rfl

/-- Candidate iteration outcome when the word has fewer than two sequences:
the `KFold` constructor raises `ValueError` before any fold runs. -/
theorem cvOuter_cons_kSmall (or : Oracles) (σ : SelState) (nc : Nat)
    (rest : List Nat) (X : Mat) (L : Lens) (b : PyFloat) (bm : Option HMModel)
    (hk : min 3 σ.sequences.length ≤ 1) :
    cvOuter or σ (nc :: rest) X L b bm = (.error .valueError, X, L) := by
  rw [cvOuter_cons, if_pos hk]

/-- Candidate iteration outcome when some fold raises: the exception
propagates out of the whole candidate loop. -/
theorem cvOuter_cons_foldsError (or : Oracles) (σ : SelState) (nc : Nat)
    (rest : List Nat) (X : Mat) (L : Lens) (b : PyFloat) (bm : Option HMModel)
    (e : PyErr) (X2 : Mat) (L2 : Lens)
    (hk : ¬ min 3 σ.sequences.length ≤ 1)
    (hF : cvFolds or σ.sequences nc (min 3 σ.sequences.length)
        (List.range (min 3 σ.sequences.length)) X L [] none = (.error e, X2, L2)) :
    cvOuter or σ (nc :: rest) X L b bm = (.error e, X2, L2) := by
  rw [cvOuter_cons, if_neg hk, hF]

/-- Candidate iteration outcome when all folds succeed: average and keep the
best by strict improvement, then continue. -/
theorem cvOuter_cons_foldsOk (or : Oracles) (σ : SelState) (nc : Nat)
    (rest : List Nat) (X : Mat) (L : Lens) (b : PyFloat) (bm : Option HMModel)
    (arr : List ℚ) (hm : Option HMModel) (X2 : Mat) (L2 : Lens)
    (hk : ¬ min 3 σ.sequences.length ≤ 1)
    (hF : cvFolds or σ.sequences nc (min 3 σ.sequences.length)
        (List.range (min 3 σ.sequences.length)) X L [] none = (.ok (arr, hm), X2, L2)) :
    cvOuter or σ (nc :: rest) X L b bm =
      (if PyFloat.gt (npMean arr) b then cvOuter or σ rest X2 L2 (npMean arr) hm
       else cvOuter or σ rest X2 L2 b bm) := by
  rw [cvOuter_cons, if_neg hk, hF]

/-- The view at the candidate loop's exit, starting from an incoming view
that is the original one or a fold training view, stays in that set. -/
theorem cvOuter_view (or : Oracles) (σ : SelState) :
    ∀ (l : List Nat) (X : Mat) (L : Lens) (b : PyFloat) (bm : Option HMModel),
      ((X, L) = (σ.X, σ.lengths) ∨ ∃ i, i < kOf σ ∧ (X, L) = trainView σ i) →
      ((cvOuter or σ l X L b bm).2 = (σ.X, σ.lengths) ∨
       ∃ i, i < kOf σ ∧ (cvOuter or σ l X L b bm).2 = trainView σ i) := by
  intro l
  induction l with
  | nil => intro X L b bm hv; exact hv
  | cons nc rest ih =>
    intro X L b bm hv
    by_cases hk : min 3 σ.sequences.length ≤ 1
    · rw [cvOuter_cons_kSmall or σ nc rest X L b bm hk]
      exact hv
    · rcases hF : cvFolds or σ.sequences nc (min 3 σ.sequences.length)
          (List.range (min 3 σ.sequences.length)) X L [] none with ⟨res, X2, L2⟩
      have hview : (X2, L2) = (σ.X, σ.lengths) ∨
          ∃ i, i < kOf σ ∧ (X2, L2) = trainView σ i := by
        have h2 := cvFolds_view or σ.sequences nc (min 3 σ.sequences.length)
          (List.range (min 3 σ.sequences.length)) X L [] none
        rw [hF] at h2
        rcases h2 with h2 | ⟨i, hi, h2⟩
        · have h2' : (X2, L2) = (X, L) := h2
          rw [h2']
          exact hv
        · have h2' : (X2, L2) =
              combine_sequences (trainIdx σ.sequences.length (min 3 σ.sequences.length) i)
                σ.sequences := h2
          exact Or.inr ⟨i, List.mem_range.mp hi, h2'⟩
      cases res with
      | error e =>
        rw [cvOuter_cons_foldsError or σ nc rest X L b bm e X2 L2 hk hF]
        exact hview
      | ok p =>
        rcases p with ⟨arr, hm⟩
        rw [cvOuter_cons_foldsOk or σ nc rest X L b bm arr hm X2 L2 hk hF]
        by_cases hgt : PyFloat.gt (npMean arr) b
        · rw [if_pos hgt]
          exact ih X2 L2 _ _ hview
        · rw [if_neg hgt]
          exact ih X2 L2 _ _ hview

/-- With at least two folds, a candidate iteration ignores the incoming
`self.X, self.lengths` view: the first fold overwrites it before any use. -/
theorem cvOuter_cons_state (or : Oracles) (σ : SelState) (nc : Nat)
    (rest : List Nat) (X A : Mat) (L B : Lens) (b : PyFloat) (bm : Option HMModel)
    (hk : ¬ min 3 σ.sequences.length ≤ 1) :
    cvOuter or σ (nc :: rest) X L b bm = cvOuter or σ (nc :: rest) A B b bm := by
  obtain ⟨t, ht⟩ : ∃ t, min 3 σ.sequences.length = t + 1 :=
    ⟨min 3 σ.sequences.length - 1, by omega⟩
  have hr : List.range (min 3 σ.sequences.length) = 0 :: List.range' 1 t := by
    rw [List.range_eq_range', ht, List.range'_succ]
  rw [cvOuter_cons, cvOuter_cons, if_neg hk, if_neg hk, hr,
    cvFolds_cons_state or σ.sequences nc (min 3 σ.sequences.length) 0
      (List.range' 1 t) X A L B [] none none]

/-- `cvOuter` reads only the `sequences` field of the selector state, so the
view write-back `setView` does not change its behavior. -/
theorem cvOuter_setView (or : Oracles) (σ : SelState) (A : Mat) (B : Lens) :
    ∀ (l : List Nat) (X : Mat) (L : Lens) (b : PyFloat) (bm : Option HMModel),
      cvOuter or (setView σ A B) l X L b bm = cvOuter or σ l X L b bm := by
  intro l
  induction l with
  | nil => intro X L b bm; rfl
  | cons nc rest ih =>
    intro X L b bm
    have hseq : (setView σ A B).sequences = σ.sequences := rfl
    by_cases hk : min 3 σ.sequences.length ≤ 1
    · rw [cvOuter_cons_kSmall or (setView σ A B) nc rest X L b bm hk,
        cvOuter_cons_kSmall or σ nc rest X L b bm hk]
    · rcases hF : cvFolds or σ.sequences nc (min 3 σ.sequences.length)
          (List.range (min 3 σ.sequences.length)) X L [] none with ⟨res, X2, L2⟩
      cases res with
      | error e =>
        rw [cvOuter_cons_foldsError or (setView σ A B) nc rest X L b bm e X2 L2 hk hF,
          cvOuter_cons_foldsError or σ nc rest X L b bm e X2 L2 hk hF]
      | ok p =>
        rcases p with ⟨arr, hm⟩
        rw [cvOuter_cons_foldsOk or (setView σ A B) nc rest X L b bm arr hm X2 L2 hk hF,
          cvOuter_cons_foldsOk or σ nc rest X L b bm arr hm X2 L2 hk hF,
          ih, ih]

/-- Invariant of the candidate loop: the running `best_model` is `None` or
the last-fold model of some candidate from the configured range, and so is
the final result on a normal exit. -/
theorem cvOuter_ok_model (or : Oracles) (σ : SelState) :
    ∀ (l : List Nat) (X : Mat) (L : Lens) (b : PyFloat) (bm : Option HMModel),
      (∀ nc, nc ∈ l → nc ∈ pyRange σ.min_n_components (σ.max_n_components + 1)) →
      (bm = none ∨ ∃ nc, nc ∈ pyRange σ.min_n_components (σ.max_n_components + 1) ∧
        bm = some (foldModel σ nc)) →
      ∀ (r : Option HMModel) (X2 : Mat) (L2 : Lens),
        cvOuter or σ l X L b bm = (.ok r, X2, L2) →
        r = none ∨ ∃ nc, nc ∈ pyRange σ.min_n_components (σ.max_n_components + 1) ∧
          r = some (foldModel σ nc) := by
  intro l
  induction l with
  | nil =>
    intro X L b bm hsub hbm r X2 L2 hEq
    rw [cvOuter_nil] at hEq
    simp only [Prod.mk.injEq, Except.ok.injEq] at hEq
    obtain ⟨h1, -, -⟩ := hEq
    exact h1 ▸ hbm
  | cons nc rest ih =>
    intro X L b bm hsub hbm r X2 L2 hEq
    by_cases hk : min 3 σ.sequences.length ≤ 1
    · rw [cvOuter_cons_kSmall or σ nc rest X L b bm hk] at hEq
      exact absurd hEq (by simp)
    · rcases hF : cvFolds or σ.sequences nc (min 3 σ.sequences.length)
          (List.range (min 3 σ.sequences.length)) X L [] none with ⟨res, X3, L3⟩
      cases res with
      | error e =>
        rw [cvOuter_cons_foldsError or σ nc rest X L b bm e X3 L3 hk hF] at hEq
        exact absurd hEq (by simp)
      | ok p =>
        rcases p with ⟨arr, hm⟩
        obtain ⟨t, ht⟩ : ∃ t, min 3 σ.sequences.length = t + 1 :=
          ⟨min 3 σ.sequences.length - 1, by omega⟩
        have hmEq : hm = some (foldModel σ nc) := by
          have hsplit : List.range (min 3 σ.sequences.length) = List.range t ++ [t] := by
            rw [ht, List.range_succ]
          rw [hsplit] at hF
          have hlast := cvFolds_snoc_ok_model or σ.sequences nc
            (min 3 σ.sequences.length) (List.range t) t X L [] none arr hm X3 L3 hF
          have hfm : foldModel σ nc =
              ⟨nc, (combine_sequences
                (trainIdx σ.sequences.length (min 3 σ.sequences.length) t) σ.sequences).1,
               (combine_sequences
                (trainIdx σ.sequences.length (min 3 σ.sequences.length) t) σ.sequences).2⟩ := by
            have hkt : kOf σ - 1 = t := by
              have : kOf σ = t + 1 := ht
              omega
            unfold foldModel trainView
            rw [hkt]
            rfl
          rw [hfm]
          exact hlast
        rw [cvOuter_cons_foldsOk or σ nc rest X L b bm arr hm X3 L3 hk hF] at hEq
        by_cases hgt : PyFloat.gt (npMean arr) b
        · rw [if_pos hgt] at hEq
          refine ih X3 L3 _ _ (fun x hx => hsub x (List.mem_cons_of_mem nc hx)) ?_ r X2 L2 hEq
          exact Or.inr ⟨nc, hsub nc (List.mem_cons_self nc rest), hmEq⟩
        · rw [if_neg hgt] at hEq
          exact ih X3 L3 _ _ (fun x hx => hsub x (List.mem_cons_of_mem nc hx)) hbm r X2 L2 hEq

/-- Any comparison against `nan` is false. -/
theorem PyFloat.gt_nan_left (b : PyFloat) : PyFloat.gt .nan b = false := by
  cases b <;> rfl

/-- Subtracting `nan` from a value gives `nan`. -/
theorem PyFloat.sub_val_nan (q : ℚ) : PyFloat.sub (.val q) .nan = .nan := by
  rfl

/-- Unfolding of one step of the `SelectorDIC` other-word scoring loop. -/
theorem dicOtherScores_cons (or : Oracles) (hm : Option HMModel)
    (hwords : List (String × (Mat × Lens))) (thisW w : String)
    (rest : List String) (acc : List ℚ) :
    dicOtherScores or hm hwords thisW (w :: rest) acc =
      (if w = thisW then dicOtherScores or hm hwords thisW rest acc
       else
         match hwords.lookup w with
         | none => .error .keyError
         | some wXl =>
           match hm with
           | none => .error .attributeError
           | some hmm_model =>
             match or.score hmm_model wXl.1 wXl.2 with
             | none => .error .scoreError
             | some q => dicOtherScores or hm hwords thisW rest (acc ++ [q])) := rfl

/-- The other-word loop skips every leading key equal to `this_word`. -/
theorem dicOtherScores_skip (or : Oracles) (hm : Option HMModel)
    (hwords : List (String × (Mat × Lens))) (thisW : String) :
    ∀ (pre l : List String) (acc : List ℚ), (∀ v, v ∈ pre → v = thisW) →
      dicOtherScores or hm hwords thisW (pre ++ l) acc =
      dicOtherScores or hm hwords thisW l acc := by
  intro pre
  induction pre with
  | nil => intro l acc hall; rw [List.nil_append]
  | cons v pre ih =>
    intro l acc hall
    rw [List.cons_append, dicOtherScores_cons,
      if_pos (hall v (List.mem_cons_self v pre)),
      ih l acc (fun w hw => hall w (List.mem_cons_of_mem v hw))]

/-- When every corpus key is the target word itself, the other-word loop
returns the accumulator unchanged. -/
theorem dicOtherScores_allThis (or : Oracles) (hm : Option HMModel)
    (hwords : List (String × (Mat × Lens))) (thisW : String)
    (keys : List String) (acc : List ℚ)
    (hall : ∀ v, v ∈ keys → v = thisW) :
    dicOtherScores or hm hwords thisW keys acc = .ok acc := by
  have h := dicOtherScores_skip or hm hwords thisW keys [] acc hall
  rw [List.append_nil] at h
  rw [h]
  rfl

/-- Unfolding of one `SelectorDIC` candidate iteration. -/
theorem dicGo_cons (or : Oracles) (σ : SelState) (nc : Nat) (rest : List Nat)
    (b : PyFloat) (bm : Option HMModel) :
    dicGo or σ (nc :: rest) b bm =
      (match dicOtherScores or (base_model or σ.X σ.lengths nc) σ.hwords
          σ.this_word σ.wordsKeys [] with
       | .error e => .error e
       | .ok scores =>
         match base_model or σ.X σ.lengths nc with
         | none => .error .attributeError
         | some m =>
           match or.score m σ.X σ.lengths with
           | none => .error .scoreError
           | some own =>
             if PyFloat.gt (PyFloat.sub (.val own) (npMean scores)) b
             then dicGo or σ rest (PyFloat.sub (.val own) (npMean scores)) (some m)
             else dicGo or σ rest b bm) := rfl

/-- Starting with `best_model = None`, if the other-word set is empty and
every candidate's fit and own-data scoring succeed, the discriminative score
is always `nan`, no comparison succeeds, and the loop returns `None`. -/
theorem dicGo_allThis_none (or : Oracles) (σ : SelState)
    (hother : ∀ v, v ∈ σ.wordsKeys → v = σ.this_word) :
    ∀ (l : List Nat) (b : PyFloat),
      (∀ nc, nc ∈ l → or.fitOk nc σ.X σ.lengths = true) →
      (∀ nc, nc ∈ l → (or.score ⟨nc, σ.X, σ.lengths⟩ σ.X σ.lengths).isSome = true) →
      dicGo or σ l b none = .ok none := by
  intro l
  induction l with
  | nil => intro b hfit hsc; rfl
  | cons nc rest ih =>
    intro b hfit hsc
    have hbm : base_model or σ.X σ.lengths nc = some ⟨nc, σ.X, σ.lengths⟩ := by
      unfold base_model fitE
      rw [hfit nc (List.mem_cons_self nc rest)]
      rfl
    obtain ⟨own, hown⟩ : ∃ q, or.score ⟨nc, σ.X, σ.lengths⟩ σ.X σ.lengths = some q :=
      Option.isSome_iff_exists.mp (hsc nc (List.mem_cons_self nc rest))
    have hOther := dicOtherScores_allThis or (some ⟨nc, σ.X, σ.lengths⟩) σ.hwords
      σ.this_word σ.wordsKeys [] hother
    rw [dicGo_cons, hbm, hOther]
    have hnan : PyFloat.sub (.val own) (npMean []) = PyFloat.nan := rfl
    simp only [hown, hnan, PyFloat.gt_nan_left, Bool.false_eq_true, if_false]
    exact ih b (fun x hx => hfit x (List.mem_cons_of_mem nc hx))
      (fun x hx => hsc x (List.mem_cons_of_mem nc hx))

/-- Consecutive fold start indices differ by the fold size. -/
theorem foldStart_succ (n k i : Nat) :
    foldStart n k (i + 1) = foldStart n k i + foldSize n k i := by
  unfold foldStart foldSize
  rw [Nat.succ_mul]
  rcases Nat.lt_or_ge i (n % k) with h | h
  · rw [if_pos h, Nat.min_eq_left (Nat.succ_le_of_lt h), Nat.min_eq_left (Nat.le_of_lt h)]
    omega
  · rw [if_neg (Nat.not_lt.mpr h), Nat.min_eq_right h, Nat.min_eq_right (by omega)]
    omega

/-- The fold start indices exhaust all `n` samples after `k` folds. -/
theorem foldStart_last (n k : Nat) (hk : 0 < k) : foldStart n k k = n := by
  unfold foldStart
  rw [Nat.min_eq_right (Nat.le_of_lt (Nat.mod_lt n hk))]
  exact Nat.div_add_mod n k

/-- The `k` test-index blocks, concatenated in fold order, are exactly the
sample indices `0, ..., n-1`: each sequence belongs to exactly one fold. -/
theorem testPartition_eq (n k : Nat) (hk : 0 < k) :
    testPartition n k = List.range n := by
  have key : ∀ j, ((List.range j).map (testIdx n k)).flatten =
      List.range' 0 (foldStart n k j) := by
    intro j
    induction j with
    | zero => simp [foldStart]
    | succ j ih =>
      rw [List.range_succ, List.map_append, List.flatten_append, ih]
      simp only [List.map_cons, List.map_nil, List.flatten_cons, List.flatten_nil,
        List.append_nil]
      unfold testIdx
      have happ := List.range'_append_1 0 (foldStart n k j) (foldSize n k j)
      simp only [Nat.zero_add] at happ
      rw [happ, foldStart_succ]
      have hc : foldSize n k j + foldStart n k j = foldStart n k j + foldSize n k j :=
        Nat.add_comm _ _
      rw [hc]
  unfold testPartition
  rw [key k, foldStart_last n k hk, List.range_eq_range']

/-- The train indices of a fold are exactly the complement of its test block
inside `range n`, in increasing order. -/
theorem trainIdx_eq_complement (n k i : Nat) :
    trainIdx n k i = complementIdx n k i := by
  unfold trainIdx complementIdx
  apply List.filter_congr
  intro j hj
  by_cases h1 : j < foldStart n k i
  · have hmem : ¬ j ∈ testIdx n k i := by
      unfold testIdx
      rw [List.mem_range'_1]
      omega
    simp [h1, hmem]
  · by_cases h2 : foldStart n k i + foldSize n k i ≤ j
    · have hmem : ¬ j ∈ testIdx n k i := by
        unfold testIdx
        rw [List.mem_range'_1]
        omega
      simp [h2, hmem]
    · have hmem : j ∈ testIdx n k i := by
        unfold testIdx
        rw [List.mem_range'_1]
        omega
      simp [h1, h2, hmem]

/-! Claim theorems. -/

/-- Claim C1: for every strategy and every selector state, `select()` never
raises past its boundary: the translated method, with exceptions modelled in
`Except`, always returns `.ok`; every internal fit or score failure is caught
(inside `base_model` or by the bare `except` whose handler is the total
`base_model` fallback), and the only failure value a caller can see is the
`none` ("no model") result. -/
theorem claim_C1_select_no_raise (or : Oracles) (σ : SelState) :
    (∃ r, constantSelectE or σ = .ok r) ∧
    (∃ r, bicSelectE or σ = .ok r) ∧
    (∃ r, dicSelectE or σ = .ok r) ∧
    (∃ r, cvSelectE or σ = .ok r) := by
  refine ⟨⟨_, rfl⟩, ?_, ?_, ?_⟩
  · unfold bicSelectE
    cases bicBody or σ <;> exact ⟨_, rfl⟩
  · unfold dicSelectE
    cases dicBody or σ <;> exact ⟨_, rfl⟩
  · unfold cvSelectE
    rcases cvBody or σ with ⟨res, X, L⟩
    cases res <;> exact ⟨_, rfl⟩

/-- Claim C2 (code-bug evidence): on a word whose fits and scorings all
succeed (`orTrue`) with search range `[2,4]`, `SelectorBIC.select` never
computes any BIC score: the first loop iteration raises `NameError` at the
`parameters = n*n + 2*n*len(self.X[0]) - 1` line (the name `n` is undefined),
and the method returns the constant-baseline fallback `base_model(3)` instead
of a minimal-BIC model. -/
theorem claim_C2_bic_nameError :
    bicBody orTrue σC2 = .error .nameError ∧
    bicSelect orTrue σC2 = some ⟨3, [[1],[2]], [2]⟩ ∧
    bicSelect orTrue σC2 = constantSelect orTrue σC2 :=
  ⟨rfl, rfl, rfl⟩

/-- Claim C3: whenever the search range is non-empty
(`min_n_components ≤ max_n_components`), `SelectorBIC.select` returns exactly
`base_model(n_constant)`, i.e. it is observationally equivalent to
`SelectorConstant.select`: the first loop iteration always raises —
`NameError` after a successful fit and score, `AttributeError` after a failed
fit — and control reaches the `except` fallback. -/
theorem claim_C3_bic_equals_constant (or : Oracles) (σ : SelState)
    (h : σ.min_n_components ≤ σ.max_n_components) :
    bicSelect or σ = constantSelect or σ ∧
    (∃ e, bicBody or σ = .error e) ∧
    (or.fitOk σ.min_n_components σ.X σ.lengths = false →
      bicBody or σ = .error .attributeError) ∧
    (∀ q, or.fitOk σ.min_n_components σ.X σ.lengths = true →
      or.score ⟨σ.min_n_components, σ.X, σ.lengths⟩ σ.X σ.lengths = some q →
      bicBody or σ = .error .nameError) := by
  have hb : ∃ e, bicBody or σ = .error e := by
    unfold bicBody
    rw [pyRange_cons _ _ h, bicGo_cons]
    cases hf : or.fitOk σ.min_n_components σ.X σ.lengths with
    | false =>
      have hbm : base_model or σ.X σ.lengths σ.min_n_components = none := by
        unfold base_model fitE
        rw [hf]
        rfl
      exact ⟨_, by rw [hbm]⟩
    | true =>
      have hbm : base_model or σ.X σ.lengths σ.min_n_components =
          some ⟨σ.min_n_components, σ.X, σ.lengths⟩ := by
        unfold base_model fitE
        rw [hf]
        rfl
      cases hs : or.score ⟨σ.min_n_components, σ.X, σ.lengths⟩ σ.X σ.lengths with
      | none =>
        refine ⟨.scoreError, ?_⟩
        simp only [hbm]
        rw [hs]
      | some q =>
        refine ⟨.nameError, ?_⟩
        simp only [hbm]
        rw [hs]
  obtain ⟨e, he⟩ := hb
  refine ⟨?_, ⟨e, he⟩, ?_, ?_⟩
  · unfold bicSelect constantSelect
    rw [he]
  · intro hf
    unfold bicBody
    rw [pyRange_cons _ _ h, bicGo_cons]
    have hbm : base_model or σ.X σ.lengths σ.min_n_components = none := by
      unfold base_model fitE
      rw [hf]
      rfl
    rw [hbm]
  · intro q hf hs
    unfold bicBody
    rw [pyRange_cons _ _ h, bicGo_cons]
    have hbm : base_model or σ.X σ.lengths σ.min_n_components =
        some ⟨σ.min_n_components, σ.X, σ.lengths⟩ := by
      unfold base_model fitE
      rw [hf]
      rfl
    simp only [hbm]
    rw [hs]

/-- Witness for C3 at a concrete state. -/
theorem claim_C3_witness : bicSelect orTrue σC3 = constantSelect orTrue σC3 :=
  (claim_C3_bic_equals_constant orTrue σC3 (by decide)).1

/-- Claim C4 counterexample: on a three-sequence word with the single
candidate `n_states = 2` and an all-success oracle, `SelectorCV.select`
returns the model trained on the last fold's training split `[[0],[1]]`,
which differs from the full word data `[[0],[1],[2]]` — the winner is not
refit on the full word data. -/
theorem claim_C4_counterexample :
    (cvSelect orTrue σC4).1 = some ⟨2, [[0],[1]], [1,1]⟩ ∧
    ([[0],[1]] : Mat) ≠ σC4.X :=
  ⟨rfl, by decide⟩

/-- Claim C4 (amended): whenever `SelectorCV.select`'s search completes
normally with a model, that model is the partial-data model fitted on the
*last* fold's training split at the winning `n_states` (some candidate from
the configured range) — it is not refit on the full word data. -/
theorem claim_C4_amended (or : Oracles) (σ : SelState) (m : HMModel)
    (h : (cvBody or σ).1 = .ok (some m)) :
    ∃ nc, nc ∈ pyRange σ.min_n_components (σ.max_n_components + 1) ∧
      m = foldModel σ nc := by
  rcases hB : cvBody or σ with ⟨res, X2, L2⟩
  have hres : res = .ok (some m) := by rw [hB] at h; exact h
  have hB2 : cvOuter or σ (pyRange σ.min_n_components (σ.max_n_components + 1))
      σ.X σ.lengths .negInf none = (.ok (some m), X2, L2) := by
    have hB3 : cvOuter or σ (pyRange σ.min_n_components (σ.max_n_components + 1))
        σ.X σ.lengths .negInf none = (res, X2, L2) := hB
    rw [hres] at hB3
    exact hB3
  have hres2 := cvOuter_ok_model or σ
    (pyRange σ.min_n_components (σ.max_n_components + 1)) σ.X σ.lengths .negInf none
    (fun x hx => hx) (Or.inl rfl) (some m) X2 L2 hB2
  rcases hres2 with h1 | ⟨nc, hnc, h2⟩
  · exact absurd h1 (by simp)
  · exact ⟨nc, hnc, Option.some.inj h2⟩

/-- Witness for C4 at a concrete state. -/
theorem claim_C4_witness :
    (cvBody orTrue σC4).1 = Except.ok (some (⟨2, [[0],[1]], [1,1]⟩ : HMModel)) ∧
    (⟨2, [[0],[1]], [1,1]⟩ : HMModel) = foldModel σC4 2 ∧
    2 ∈ pyRange σC4.min_n_components (σC4.max_n_components + 1) := by
  obtain ⟨nc, hnc, heq⟩ := claim_C4_amended orTrue σC4 ⟨2, [[0],[1]], [1,1]⟩ rfl
  have hn : (2 : Nat) = nc := congrArg HMModel.n_components heq
  subst hn
  exact ⟨rfl, heq, hnc⟩

/-- Claim C5 counterexample: with an oracle that fails scoring exactly on
fold 0's held-out view `[[0]]` (while folds 1 and 2 remain scoreable), the
very first fold failure aborts the entire `SelectorCV` search with the raised
exception: no other fold and no other candidate is evaluated, and `select`
degrades to the constant fallback (state count 5) fit on fold 0's training
view — the failing fold is not merely excluded from the average. -/
theorem claim_C5_counterexample :
    cvBody orC5 σC5 = (.error .scoreError, [[1],[2]], [1,1]) ∧
    (cvSelect orC5 σC5).1 = some ⟨5, [[1],[2]], [1,1]⟩ ∧
    orC5.score ⟨2, [[0],[2]], [1,1]⟩ [[1]] [1] = some 0 ∧
    orC5.score ⟨2, [[0],[1]], [1,1]⟩ [[2]] [1] = some 0 :=
  ⟨rfl, rfl, rfl, rfl⟩

/-- Claim C5 (amended): a fit or scoring failure on a fold aborts the whole
`SelectorCV` search rather than excluding just that fold: if the first
candidate's fold 0 fit succeeds but its held-out scoring fails, then — for
*every* behavior of the oracles on the remaining folds and candidates — the
body raises, no further fold or candidate is evaluated, and `select` returns
the constant fallback fit on fold 0's training view. -/
theorem claim_C5_amended (or : Oracles) (σ : SelState)
    (hr : σ.min_n_components ≤ σ.max_n_components)
    (hk : 2 ≤ kOf σ)
    (hfit : or.fitOk σ.min_n_components (trainView σ 0).1 (trainView σ 0).2 = true)
    (hscore : or.score ⟨σ.min_n_components, (trainView σ 0).1, (trainView σ 0).2⟩
        (testView σ 0).1 (testView σ 0).2 = none) :
    cvBody or σ = (.error .scoreError, (trainView σ 0).1, (trainView σ 0).2) ∧
    cvSelect or σ = (base_model or (trainView σ 0).1 (trainView σ 0).2 σ.n_constant,
      (trainView σ 0).1, (trainView σ 0).2) := by
  have hk2 : 2 ≤ min 3 σ.sequences.length := hk
  have hk1 : ¬ min 3 σ.sequences.length ≤ 1 := by omega
  obtain ⟨t, ht⟩ : ∃ t, min 3 σ.sequences.length = t + 1 :=
    ⟨min 3 σ.sequences.length - 1, by omega⟩
  have hr0 : List.range (min 3 σ.sequences.length) = 0 :: List.range' 1 t := by
    rw [List.range_eq_range', ht, List.range'_succ]
  have hbm : base_model or (trainView σ 0).1 (trainView σ 0).2 σ.min_n_components
      = some ⟨σ.min_n_components, (trainView σ 0).1, (trainView σ 0).2⟩ := by
    unfold base_model fitE
    rw [hfit]
    rfl
  have hF : cvFolds or σ.sequences σ.min_n_components (min 3 σ.sequences.length)
      (List.range (min 3 σ.sequences.length)) σ.X σ.lengths [] none =
      (.error .scoreError, (trainView σ 0).1, (trainView σ 0).2) := by
    rw [hr0]
    exact cvFolds_cons_scoreFail or σ.sequences σ.min_n_components
      (min 3 σ.sequences.length) 0 (List.range' 1 t) σ.X σ.lengths [] none
      ⟨σ.min_n_components, (trainView σ 0).1, (trainView σ 0).2⟩ hbm hscore
  have hbody : cvBody or σ =
      (.error .scoreError, (trainView σ 0).1, (trainView σ 0).2) := by
    unfold cvBody
    rw [pyRange_cons _ _ hr]
    exact cvOuter_cons_foldsError or σ σ.min_n_components _ σ.X σ.lengths .negInf none
      .scoreError _ _ hk1 hF
  refine ⟨hbody, ?_⟩
  unfold cvSelect
  rw [hbody]

/-- Witness for C5 at a concrete state. -/
theorem claim_C5_witness :
    cvBody orC5 σC5 = (.error .scoreError, (trainView σC5 0).1, (trainView σC5 0).2) :=
  (claim_C5_amended orC5 σC5 (by decide) (by decide) rfl rfl).1

/-- Claim C7 counterexample: when fold 0's held-out scoring fails,
`SelectorCV.select` falls back to the constant-baseline model, but fits it on
the *mutated* view `[[11],[12]]` — fold 0's training split — which differs
from the full word data `[[10],[11],[12]]`. -/
theorem claim_C7_counterexample :
    cvSelect orC7 σC7 = (some ⟨3, [[11],[12]], [1,1]⟩, [[11],[12]], [1,1]) ∧
    ([[11],[12]] : Mat) ≠ σC7.X :=
  ⟨rfl, by decide⟩

/-- Claim C7 (amended): when the search fails internally, `SelectorBIC` and
`SelectorDIC` fit the constant-baseline fallback on the full word data
(they never reassign the view), but `SelectorCV` fits it on whatever
`self.X, self.lengths` holds at the exception — the original full view only
if the failure precedes any fold assignment, otherwise some fold's training
split. -/
theorem claim_C7_amended (or : Oracles) (σ : SelState) :
    (∀ e, bicBody or σ = .error e →
      bicSelect or σ = base_model or σ.X σ.lengths σ.n_constant) ∧
    (∀ e, dicBody or σ = .error e →
      dicSelect or σ = base_model or σ.X σ.lengths σ.n_constant) ∧
    (∀ e X L, cvBody or σ = (.error e, X, L) →
      cvSelect or σ = (base_model or X L σ.n_constant, X, L) ∧
      ((X, L) = (σ.X, σ.lengths) ∨ ∃ i, i < kOf σ ∧ (X, L) = trainView σ i)) := by
  refine ⟨?_, ?_, ?_⟩
  · intro e he
    unfold bicSelect
    rw [he]
  · intro e he
    unfold dicSelect
    rw [he]
  · intro e X L he
    constructor
    · unfold cvSelect
      rw [he]
    · have hv := cvOuter_view or σ (pyRange σ.min_n_components (σ.max_n_components + 1))
        σ.X σ.lengths .negInf none (Or.inl rfl)
      have hv2 : (cvBody or σ).2 = (σ.X, σ.lengths) ∨
          ∃ i, i < kOf σ ∧ (cvBody or σ).2 = trainView σ i := hv
      rw [he] at hv2
      exact hv2

/-- Witness for C7 at a concrete state. -/
theorem claim_C7_witness :
    cvSelect orC7 σC7 = (base_model orC7 [[11],[12]] [1,1] σC7.n_constant,
      ([[11],[12]] : Mat), ([1,1] : Lens)) :=
  ((claim_C7_amended orC7 σC7).2.2 PyErr.scoreError [[11],[12]] [1,1] rfl).1

/-- Claim C8 counterexample: `SelectorCV.select` does not leave the
selector's data view unchanged — after a successful run on a three-sequence
word, `self.X, self.lengths` holds the last fold's training view, not the
full word view. -/
theorem claim_C8_counterexample :
    (cvSelect orTrue σC8).2 ≠ (σC8.X, σC8.lengths) := by decide

/-- Claim C8 (amended): `SelectorCV.select` overwrites the instance's
`X`/`lengths` view (with the last assigned fold training split), yet a
repeated `select()` call on the resulting state returns the same result and
final view, because every fold reassigns the view from the unchanged
`sequences` field before using it (and the non-CV strategies never write the
view at all). -/
theorem claim_C8_amended (or : Oracles) (σ : SelState) :
    cvSelect or (setView σ (cvSelect or σ).2.1 (cvSelect or σ).2.2) =
      cvSelect or σ := by
  rcases hR : pyRange σ.min_n_components (σ.max_n_components + 1) with - | ⟨nc, rest⟩
  · have hb : cvBody or σ = (.ok none, σ.X, σ.lengths) := by
      unfold cvBody
      rw [hR, cvOuter_nil]
    have hs : cvSelect or σ = (none, σ.X, σ.lengths) := by
      unfold cvSelect
      rw [hb]
    rw [hs]
    exact hs
  · by_cases hk : min 3 σ.sequences.length ≤ 1
    · have hb : cvBody or σ = (.error .valueError, σ.X, σ.lengths) := by
        unfold cvBody
        rw [hR]
        exact cvOuter_cons_kSmall or σ nc rest σ.X σ.lengths .negInf none hk
      have hs : cvSelect or σ =
          (base_model or σ.X σ.lengths σ.n_constant, σ.X, σ.lengths) := by
        unfold cvSelect
        rw [hb]
      rw [hs]
      exact hs
    · have hbody : ∀ (A : Mat) (B : Lens), cvBody or (setView σ A B) = cvBody or σ := by
        intro A B
        show cvOuter or (setView σ A B)
            (pyRange σ.min_n_components (σ.max_n_components + 1)) A B .negInf none =
          cvBody or σ
        rw [cvOuter_setView or σ A B]
        unfold cvBody
        rw [hR]
        exact cvOuter_cons_state or σ nc rest A σ.X B σ.lengths .negInf none hk
      unfold cvSelect
      rw [hbody]
      rfl

/-- Claim C6 counterexample: with other words `"a"` and `"b"` where scoring
the fitted candidate against `"a"`'s data fails (while `"b"`'s data remains
scoreable), the very first other-word scoring failure aborts the entire
`SelectorDIC` search: the body raises, `"b"` is never folded into any mean,
and `select` returns the constant fallback (state count 6) instead of a
searched candidate. -/
theorem claim_C6_counterexample :
    dicBody orC6 σC6 = .error .scoreError ∧
    dicSelect orC6 σC6 = some ⟨6, [[5]], [1]⟩ ∧
    orC6.score ⟨2, [[5]], [1]⟩ [[8]] [1] = some 0 :=
  ⟨rfl, rfl, rfl⟩

/-- Claim C6 (amended): a failure scoring a fitted candidate against one
other word raises out of the whole `SelectorDIC` search rather than being
omitted from the mean: if the first candidate fits and the first other word
in the key order fails to score, then — for *every* behavior of the oracles
on the remaining words and candidates — the body raises and `select`
degrades to `base_model(n_constant)`. -/
theorem claim_C6_amended (or : Oracles) (σ : SelState)
    (pre : List String) (w : String) (others : List String) (wX : Mat) (wL : Lens)
    (hr : σ.min_n_components ≤ σ.max_n_components)
    (hkeys : σ.wordsKeys = pre ++ w :: others)
    (hpre : ∀ v, v ∈ pre → v = σ.this_word)
    (hw : ¬ w = σ.this_word)
    (hlook : σ.hwords.lookup w = some (wX, wL))
    (hfit : or.fitOk σ.min_n_components σ.X σ.lengths = true)
    (hscore : or.score ⟨σ.min_n_components, σ.X, σ.lengths⟩ wX wL = none) :
    dicBody or σ = .error .scoreError ∧
    dicSelect or σ = base_model or σ.X σ.lengths σ.n_constant := by
  have hbm : base_model or σ.X σ.lengths σ.min_n_components =
      some ⟨σ.min_n_components, σ.X, σ.lengths⟩ := by
    unfold base_model fitE
    rw [hfit]
    rfl
  have hOther : dicOtherScores or (some ⟨σ.min_n_components, σ.X, σ.lengths⟩)
      σ.hwords σ.this_word σ.wordsKeys [] = .error .scoreError := by
    rw [hkeys,
      dicOtherScores_skip or (some ⟨σ.min_n_components, σ.X, σ.lengths⟩) σ.hwords
        σ.this_word pre (w :: others) [] hpre,
      dicOtherScores_cons, if_neg hw, hlook]
    simp only [hscore]
  have hbody : dicBody or σ = .error .scoreError := by
    unfold dicBody
    rw [pyRange_cons _ _ hr, dicGo_cons, hbm, hOther]
  refine ⟨hbody, ?_⟩
  unfold dicSelect
  rw [hbody]

/-- Witness for C6 at a concrete state. -/
theorem claim_C6_witness :
    dicBody orC6 σC6 = .error .scoreError ∧
    dicSelect orC6 σC6 = base_model orC6 σC6.X σC6.lengths σC6.n_constant :=
  claim_C6_amended orC6 σC6 ["w"] "a" ["b"] [[7]] [1] (by decide) rfl
    (by decide) (by decide) rfl rfl rfl

/-- Claim C10 counterexample: when the corpus contains only the target word,
`SelectorDIC.select` with an all-success oracle returns `None` — not the
constant-baseline model `fit_candidate(constant_n)`, which exists and is
returned by `base_model(3)`. -/
theorem claim_C10_counterexample :
    dicSelect orTrue σC10 = none ∧
    base_model orTrue σC10.X σC10.lengths σC10.n_constant = some ⟨3, [[9]], [1]⟩ :=
  ⟨rfl, rfl⟩

/-- Claim C10 (amended): when the other-word set is empty and every
candidate's fit and own-data scoring succeed, `SelectorDIC.select` returns
`None`: `np.mean([])` is `nan`, the discriminative score `own - nan` is
`nan`, no `nan > best_score` comparison succeeds, so `best_model` is never
assigned; the constant fallback is reached only when an exception occurs. -/
theorem claim_C10_amended (or : Oracles) (σ : SelState)
    (hother : ∀ v, v ∈ σ.wordsKeys → v = σ.this_word)
    (hfit : ∀ nc, nc ∈ pyRange σ.min_n_components (σ.max_n_components + 1) →
      or.fitOk nc σ.X σ.lengths = true)
    (hsc : ∀ nc, nc ∈ pyRange σ.min_n_components (σ.max_n_components + 1) →
      (or.score ⟨nc, σ.X, σ.lengths⟩ σ.X σ.lengths).isSome = true) :
    dicSelect or σ = none := by
  have hbody : dicBody or σ = .ok none := by
    unfold dicBody
    exact dicGo_allThis_none or σ hother
      (pyRange σ.min_n_components (σ.max_n_components + 1)) .negInf hfit hsc
  unfold dicSelect
  rw [hbody]

/-- Witness for C10 at a concrete state. -/
theorem claim_C10_witness : dicSelect orTrue σC10 = none :=
  claim_C10_amended orTrue σC10 (by decide) (by decide) (by decide)

/-- Claim C9 counterexample: for a word with exactly one sequence,
`SelectorCV` does not run a one-fold cross-validation — the `KFold`
constructor (`n_splits = min(3, 1) = 1`) raises `ValueError` before any
partition or average, and `select` degrades to the constant fallback
(state count 3) fit on the full view, even with an all-success oracle. -/
theorem claim_C9_counterexample :
    σC9.sequences.length = 1 ∧
    cvBody orTrue σC9 = (.error .valueError, [[4],[5]], [2]) ∧
    cvSelect orTrue σC9 = (some ⟨3, [[4],[5]], [2]⟩, [[4],[5]], [2]) :=
  ⟨rfl, rfl, rfl⟩

/-- Claim C9 (amended): only for a word with at least two sequences does
`SelectorCV` partition the sequence indices into `k = min(3, n)` folds
(each index in exactly one contiguous test block, train = complement); a
one-sequence word makes `KFold` raise, and fold failures are not excluded
from the average — when the fold loop completes, every one of the `k` folds
contributed to `logL_arr`. -/
theorem claim_C9_amended (or : Oracles) (σ : SelState)
    (h2 : 2 ≤ σ.sequences.length) :
    2 ≤ kOf σ ∧
    testPartition σ.sequences.length (kOf σ) = List.range σ.sequences.length ∧
    (∀ i, i < kOf σ → trainIdx σ.sequences.length (kOf σ) i =
      complementIdx σ.sequences.length (kOf σ) i) ∧
    (∀ (nc : Nat) (arr : List ℚ) (hm : Option HMModel) (X : Mat) (L : Lens),
      cvFolds or σ.sequences nc (kOf σ) (List.range (kOf σ)) σ.X σ.lengths [] none =
        (.ok (arr, hm), X, L) → arr.length = kOf σ) := by
  have hk : 2 ≤ kOf σ := le_min (by omega) h2
  refine ⟨hk, ?_, ?_, ?_⟩
  · exact testPartition_eq σ.sequences.length (kOf σ) (by omega)
  · intro i _
    exact trainIdx_eq_complement σ.sequences.length (kOf σ) i
  · intro nc arr hm X L hEq
    have hlen := cvFolds_ok_length or σ.sequences nc (kOf σ) (List.range (kOf σ))
      σ.X σ.lengths [] none arr hm X L hEq
    simpa using hlen

/-- Witness for C9 at a concrete state with four sequences (uneven folds). -/
theorem claim_C9_witness :
    2 ≤ kOf σC9W ∧
    testPartition σC9W.sequences.length (kOf σC9W) =
      List.range σC9W.sequences.length := by
  refine ⟨?_, ?_⟩
  · exact (claim_C9_amended orTrue σC9W (by decide)).1
  · exact (claim_C9_amended orTrue σC9W (by decide)).2.1

end MMS
